import Mathlib

/-!
Verification of the youtube-scraper content-to-answer pipeline.

Shallow embedding of:
- the content normalizer / vector database wrapper (`vector-database.ts`),
- the conversational retrieval engine (`conversational-ai.ts`),
- the chat route's citation enhancement (`app/api/chat/route.ts`),
- the scraper's batch processing (`lib/youtube-scraper.ts`) and the
  channel-processing route's per-video ingestion loop
  (`app/api/process-channel/route.ts`).

Machine numbers are modelled as `Nat`/`ℚ`; JavaScript objects become
structures; `undefined`-able fields become `Option`; thrown exceptions
become `Except`; the mutable Supabase-backed vector store becomes explicit
state passing over a `List Document`.
-/

/-! ## Data model -/

/-- Metadata attached to an embedded chunk, mirroring the object literals
built in `vector-database.ts`.  Fields a given call site does not set are
`none` (JavaScript `undefined`). -/
structure DocMetadata where
  videoId : String
  channelId : String
  videoTitle : String
  channelName : String
  url : String
  viewCount : Option Nat
  uploadDate : Option String
  likeCount : Option Nat
  author : Option String
  timestamp : Option String
  source : String
deriving DecidableEq, Repr

/-- A langchain `Document`: page content plus metadata. -/
structure Document where
  pageContent : String
  metadata : DocMetadata
deriving DecidableEq, Repr

/-! ## Text splitter

Modelled from the spec: `RecursiveCharacterTextSplitter` is external
langchain library code, not part of this repository.  Per the spec (§4.1,
§8): a non-empty input no longer than the chunk size (1000) yields exactly
one chunk, the trimmed input; a longer input is split into windows of at
most 1000 characters whose consecutive members overlap by 200 characters
(so the window start advances by 800). -/

/-- Recursion worker for `windows`; the fuel only bounds the recursion
depth and `windows` passes enough of it (each step consumes at least one
character, so `l.length` suffices). -/
def windowsGo (fuel : Nat) (l : List Char) : List (List Char) :=
  match fuel with
  | 0 => [l]
  | fuel' + 1 =>
    if l.length ≤ 1000 then [l]
    else l.take 1000 :: windowsGo fuel' (l.drop 800)

/-- Successive windows of at most 1000 characters, advancing by 800
(1000 − 200 overlap). -/
def windows (l : List Char) : List (List Char) :=
  windowsGo l.length l

/-- Modelled from the spec: split one source string into chunk texts. -/
def splitText (s : String) : List String :=
  if s = "" then [] else (windows s.data).map (fun cs => (String.mk cs).trim)

/-- The call `textSplitter.createDocuments([text], [metadata])`: every chunk of the
split text carries the single metadata block. -/
def createDocuments (text : String) (md : DocMetadata) : List Document :=
  (splitText text).map (fun c => { pageContent := c, metadata := md })

/-! ## Vector database (`vector-database.ts`) -/

/-- The `metadata` argument of `VectorDatabase.processVideoContent`. -/
structure ProcessMeta where
  channelName : String
  url : String
  viewCount : Option Nat
  uploadDate : Option String
deriving DecidableEq, Repr

/-- The `metadata` argument of `VectorDatabase.processComments`. -/
structure CommentsMeta where
  channelName : String
  url : String
deriving DecidableEq, Repr

/-- One element of the `comments` argument of `processComments`. -/
structure CommentInput where
  author : String
  content : String
  likeCount : Option Nat
deriving DecidableEq, Repr

/-- Error taxonomy named by the spec for the ingestion path. -/
inductive IngestError where
  | validationError : String → IngestError
  | indexUnavailable : IngestError
deriving DecidableEq, Repr

/-- The metadata block `processVideoContent` attaches to chunks of the
given source kind (`transcript`, `description` or `title`). -/
def videoMeta (videoId channelId title : String) (meta : ProcessMeta)
    (src : String) : DocMetadata :=
  { videoId := videoId
    channelId := channelId
    videoTitle := title
    channelName := meta.channelName
    url := meta.url
    viewCount := meta.viewCount
    uploadDate := meta.uploadDate
    likeCount := none
    author := none
    timestamp := none
    source := src }

/-- The metadata block `processComments` attaches to chunks of one comment. -/
def commentMeta (videoId channelId title : String) (meta : CommentsMeta)
    (c : CommentInput) : DocMetadata :=
  { videoId := videoId
    channelId := channelId
    videoTitle := title
    channelName := meta.channelName
    url := meta.url
    viewCount := none
    uploadDate := none
    likeCount := c.likeCount
    author := some c.author
    timestamp := none
    source := "comments" }

/-- The store write `SupabaseVectorStore.addDocuments`.  Modelled from the deployment SQL
(the `youtube_embeddings` table has a plain `bigserial` primary key and no
uniqueness constraint), so adding documents inserts rows: it appends. -/
def addDocuments (store : List Document) (docs : List Document) :
    List Document :=
  store ++ docs

/-- The guarded write `if (this.vectorStore) await this.vectorStore.addDocuments(...)`:
the store is `Option`al (`null` until `initialize` ran). -/
def addIfStore (store : Option (List Document)) (docs : List Document) :
    Option (List Document) :=
  store.map (fun s => addDocuments s docs)

/-- The normalizer `VectorDatabase.processVideoContent`.  Truthiness guards on
`transcript` and `description` become `≠ ""`; the title block has no such
guard but checks `titleDoc.length > 0` before adding.  The source performs
no input validation and never throws `ValidationError`. -/
def processVideoContent (store : Option (List Document))
    (videoId channelId title transcript description : String)
    (meta : ProcessMeta) : Except IngestError (Option (List Document)) :=
  let st1 := if transcript ≠ "" then
      addIfStore store
        (createDocuments transcript (videoMeta videoId channelId title meta "transcript"))
    else store
  let st2 := if description ≠ "" then
      addIfStore st1
        (createDocuments description (videoMeta videoId channelId title meta "description"))
    else st1
  let titleDoc := createDocuments title (videoMeta videoId channelId title meta "title")
  let st3 := if titleDoc.length > 0 then addIfStore st2 titleDoc else st2
  .ok st3

/-- The pure chunk list produced by one `processVideoContent` call
(what gets appended to a non-`none` store). -/
def processVideoContentDocs
    (videoId channelId title transcript description : String)
    (meta : ProcessMeta) : List Document :=
  (if transcript ≠ "" then
      createDocuments transcript (videoMeta videoId channelId title meta "transcript")
    else [])
  ++ (if description ≠ "" then
      createDocuments description (videoMeta videoId channelId title meta "description")
    else [])
  ++ createDocuments title (videoMeta videoId channelId title meta "title")

/-- The normalizer `VectorDatabase.processComments`: early return on an empty comment
list, then per comment: skip on empty content, else render
`"{author}: {content}"`, split, add. -/
def processComments (store : Option (List Document))
    (videoId channelId title : String) (comments : List CommentInput)
    (meta : CommentsMeta) : Except IngestError (Option (List Document)) :=
  if comments.isEmpty then .ok store
  else .ok (comments.foldl
    (fun st c =>
      if c.content = "" then st
      else addIfStore st
        (createDocuments (c.author ++ ": " ++ c.content)
          (commentMeta videoId channelId title meta c)))
    store)

/-- The pure chunk list produced by one `processComments` call. -/
def processCommentsDocs (videoId channelId title : String)
    (comments : List CommentInput) (meta : CommentsMeta) : List Document :=
  comments.foldr
    (fun c acc =>
      (if c.content = "" then []
       else createDocuments (c.author ++ ": " ++ c.content)
         (commentMeta videoId channelId title meta c)) ++ acc)
    []

/-! ## Similarity search (`vector-database.ts`, ll. 201–211) -/

/-- Modelled from the spec: the external Supabase vector store holds the
indexed documents and, for a query, assigns each document its cosine
similarity to the query's embedding.  We abstract the embedding pipeline
as the scoring function `score`. -/
structure VectorStore where
  docs : List Document
  score : String → Document → ℚ

instance scoreRelDecidable (f : Document → ℚ) :
    DecidableRel (fun a b : Document => f b ≤ f a) :=
  fun a b => inferInstanceAs (Decidable (f b ≤ f a))

/-- Modelled from the spec: `vectorStore.similaritySearch(query, k)`
returns the stored documents ordered by descending similarity to the
query, truncated to at most `k` results. -/
def storeSearch (vs : VectorStore) (query : String) (k : Nat) :
    List Document :=
  (vs.docs.insertionSort (fun a b => vs.score query b ≤ vs.score query a)).take k

/-- The query path `VectorDatabase.similaritySearch`: lazily runs the store construction when the
store is still `null` (the store that call would construct is passed in as
`ini`), then queries the store; the dead fallback returning `[]` when the
store is still `null` afterwards is kept.  Returns the new store state
together with the results. -/
def similaritySearch (vs : Option VectorStore) (ini : VectorStore)
    (query : String) (k : Nat) : Option VectorStore × List Document :=
  let vs1 := match vs with
    | none => some ini
    | some s => some s
  match vs1 with
  | some s => (vs1, storeSearch s query k)
  | none => (vs1, [])

/-! ## Conversational engine (`conversational-ai.ts`) -/

/-- One source entry of `processMessage`'s result (also the shape the chat
route's enhancement loop rewrites). -/
structure SourceCitation where
  videoId : String
  videoTitle : String
  channelName : String
  url : String
  source : String
  timestamp : Option String
deriving DecidableEq, Repr

/-- The pairs `sources.map(item => [item.videoId, item])` feeding `new Map(...)`:
JavaScript `Map` insertion — a fresh key is appended, an existing key
keeps its position but its value is replaced. -/
def jsMapInsert (m : List (String × SourceCitation)) (x : SourceCitation) :
    List (String × SourceCitation) :=
  if m.any (fun p => p.1 = x.videoId) then
    m.map (fun p => if p.1 = x.videoId then (p.1, x) else p)
  else m ++ [(x.videoId, x)]

/-- The map `new Map(sources.map(item => [item.videoId, item]))` built by
inserting the pairs in order. -/
def jsMapOfSources (sources : List SourceCitation) :
    List (String × SourceCitation) :=
  sources.foldl jsMapInsert []

/-- The value list `Array.from(new Map(sources.map(...)).values())`
— the deduplicated source list of `processMessage`. -/
def uniqueSources (sources : List SourceCitation) : List SourceCitation :=
  (jsMapOfSources sources).map Prod.snd

/-- Step `keyStep` is how the key set of a JavaScript `Map` evolves on one
insertion: an already-present key is kept in place, a fresh one appended. -/
def keyStep (acc : List String) (k : String) : List String :=
  if k ∈ acc then acc else acc ++ [k]

/-- Key list after inserting all elements: first occurrences in order. -/
def dedupKeysFirst (l : List String) : List String :=
  l.foldl keyStep []

/-- First-match association-list lookup (JavaScript `Map.get`). -/
def lookupA (k : String) : List (String × SourceCitation) → Option SourceCitation
  | [] => none
  | p :: ps => if p.1 = k then some p.2 else lookupA k ps

/-- The last element of `s` whose `videoId` is `k`, if any. -/
def lastWith (k : String) : List SourceCitation → Option SourceCitation
  | [] => none
  | c :: cs =>
    match lastWith k cs with
    | some v => some v
    | none => if c.videoId = k then some c else none

/-- Roles of `ChatMessage` in `conversational-ai.ts`. -/
inductive ChatRole where
  | user
  | assistant
  | system
deriving DecidableEq, Repr

/-- One turn held by the engine's `BufferMemory`. -/
structure ChatMessage where
  role : ChatRole
  content : String
deriving DecidableEq, Repr

/-- Failures the spec names on the ask path. -/
inductive EngineError where
  | indexUnavailable
  | embeddingFailure
  | generationFailure
deriving DecidableEq, Repr

/-- What `this.chain.call({question})` resolves to on success: the answer
text and the (optional) retrieved source documents. -/
structure ChainResult where
  text : String
  sourceDocuments : Option (List Document)

/-- The engine's mutable state: whether the chain is constructed, and the
dialogue held by its `BufferMemory`. -/
structure EngineState where
  chainReady : Bool
  memory : List ChatMessage
deriving DecidableEq, Repr

/-- From `doc.metadata` to one raw source entry of `processMessage`. -/
def docToSource (d : Document) : SourceCitation :=
  { videoId := d.metadata.videoId
    videoTitle := d.metadata.videoTitle
    channelName := d.metadata.channelName
    url := d.metadata.url
    source := d.metadata.source
    timestamp := d.metadata.timestamp }

/-- The fixed degraded answer of `processMessage`'s catch block. -/
def apologeticResponse : String :=
  "I encountered an error while processing your message. Please try again."

/-- The ask path `ConversationalAI.processMessage`.  The lazy chain-construction call
sits before (outside) the try/catch, so its failure propagates to the
caller; a failure of `this.chain.call` is caught and converted to the
fixed apologetic response with no sources.  `initResult` is the outcome the
lazy initialization would have, `callResult` the outcome of the chain
call.  Modelled from the spec for the external chain: on success langchain's
`BufferMemory` appends the question and the answer as two turns; on
failure the memory is untouched. -/
def processMessage (initResult : Except EngineError Unit)
    (callResult : Except EngineError ChainResult)
    (st : EngineState) (message : String) :
    Except EngineError (EngineState × String × List SourceCitation) :=
  match (if st.chainReady then Except.ok () else initResult) with
  | .error e => .error e
  | .ok _ =>
    match callResult with
    | .error _ =>
      .ok ({ chainReady := true, memory := st.memory }, apologeticResponse, [])
    | .ok r =>
      let sources := ((r.sourceDocuments.getD []).map docToSource)
      .ok ({ chainReady := true
             memory := st.memory
               ++ [{ role := .user, content := message },
                   { role := .assistant, content := r.text }] },
           r.text, uniqueSources sources)

/-! ## Engine construction (`conversational-ai.ts`, constructor) -/

/-- The constructor's configuration object. -/
structure ConversationalAIConfig where
  openaiApiKey : String
  modelName : Option String
  temperature : Option ℚ
  maxTokens : Option Nat
deriving DecidableEq, Repr

/-- The options the constructor hands to `new OpenAI(...)`. -/
structure OpenAIModelOpts where
  openAIApiKey : String
  modelName : String
  temperature : ℚ
  maxTokens : Nat
deriving DecidableEq, Repr

/-- JavaScript `x || d` for an optional string: `undefined` and `""` are
falsy. -/
def jsOrStr (x : Option String) (d : String) : String :=
  match x with
  | none => d
  | some v => if v = "" then d else v

/-- JavaScript `x || d` for an optional rational: `undefined` and `0` are
falsy. -/
def jsOrQ (x : Option ℚ) (d : ℚ) : ℚ :=
  match x with
  | none => d
  | some v => if v = 0 then d else v

/-- JavaScript `x || d` for an optional natural: `undefined` and `0` are
falsy. -/
def jsOrNat (x : Option Nat) (d : Nat) : Nat :=
  match x with
  | none => d
  | some v => if v = 0 then d else v

/-- The constructor's model-option merge:
`modelName: config.modelName || 'gpt-4'`,
`temperature: config.temperature || 0.7`,
`maxTokens: config.maxTokens || 1000`. -/
def mkModelOpts (cfg : ConversationalAIConfig) : OpenAIModelOpts :=
  { openAIApiKey := cfg.openaiApiKey
    modelName := jsOrStr cfg.modelName "gpt-4"
    temperature := jsOrQ cfg.temperature (7 / 10)
    maxTokens := jsOrNat cfg.maxTokens 1000 }

/-! ## Chat route citation enhancement (`app/api/chat/route.ts`, ll. 46–73) -/

/-- The part of a stored video row (`db.getVideo`) the route reads. -/
structure VideoDetails where
  video_id : String
  title : String
  url : String
deriving DecidableEq, Repr

/-- The digit string captured by the timestamp regex, as a number. -/
def digitsToNat (ds : List Char) : Nat :=
  ds.foldl (fun n c => n * 10 + (c.toNat - 48)) 0

/-- One attempted match of `/\[(\d+(?:\.\d+)?)s\]/` at the head of the
character list, returning the integer part of the captured seconds.
The source parses the capture with `parseFloat` and afterwards only ever
uses `Math.floor(seconds)`, `Math.floor(seconds / 60)` and
`Math.floor(seconds % 60)`; for `seconds = i + f` with `0 ≤ f < 1` all
three depend only on the integer part `i`, so returning `i` is an exact
model of the uses. -/
def matchTsAt : List Char → Option Nat
  | [] => none
  | c :: rest =>
    if c = '[' then
      if (rest.takeWhile Char.isDigit).isEmpty then none
      else
        match rest.dropWhile Char.isDigit with
        | 's' :: ']' :: _ => some (digitsToNat (rest.takeWhile Char.isDigit))
        | '.' :: r2 =>
          if (r2.takeWhile Char.isDigit).isEmpty then none
          else
            match r2.dropWhile Char.isDigit with
            | 's' :: ']' :: _ => some (digitsToNat (rest.takeWhile Char.isDigit))
            | _ => none
        | _ => none
    else none

/-- The match `timestamp.match(/\[(\d+(?:\.\d+)?)s\]/)`: first position where the
pattern matches. -/
def findTs : List Char → Option Nat
  | [] => none
  | c :: cs =>
    match matchTsAt (c :: cs) with
    | some n => some n
    | none => findTs cs

/-- JavaScript `String.prototype.padStart(2, '0')`. -/
def padStart2 (s : String) : String :=
  if s.length < 2 then String.mk (List.replicate (2 - s.length) '0') ++ s else s

/-- Substring test over character lists (JavaScript `String.includes`). -/
def hasSub (needle : List Char) : List Char → Bool
  | [] => needle.isEmpty
  | c :: cs => needle.isPrefixOf (c :: cs) || hasSub needle cs

/-- The characters of `"&t="`. -/
def tParam : List Char := ['&', 't', '=']

/-- The per-source body of the route's enhancement loop: skip falsy
`videoId`; look the video up; on a hit overwrite `url` with the row's
`url`, then, when a truthy `timestamp` matches the seconds regex, rewrite
the timestamp to `M:SS` and append `&t=<wholeSeconds>` to the url unless
it already contains `&t=`. -/
def enhanceSource (getVideo : String → Option VideoDetails)
    (s : SourceCitation) : SourceCitation :=
  if s.videoId = "" then s
  else
    match getVideo s.videoId with
    | none => s
    | some vd =>
      let s1 := { s with url := vd.url }
      match s1.timestamp with
      | none => s1
      | some ts =>
        if ts = "" then s1
        else
          match findTs ts.data with
          | none => s1
          | some n =>
            let s2 := { s1 with
              timestamp := some (toString (n / 60) ++ ":" ++ padStart2 (toString (n % 60))) }
            if hasSub tParam s2.url.data then s2
            else { s2 with url := s2.url ++ "&t=" ++ toString n }

/-! ## Scraper batching and channel ingestion
(`lib/youtube-scraper.ts`, `app/api/process-channel/route.ts`) -/

/-- The fields of a scraped video the ingestion path uses. -/
structure VideoInfo where
  videoId : String
  title : String
  url : String
  channelId : String
deriving DecidableEq, Repr

/-- A failure thrown by `scrapeVideo` (failed fetch, parse error, …). -/
inductive ScrapeError where
  | scrapeFailed : String → ScrapeError
deriving DecidableEq, Repr

/-- The batch worker `YouTubeScraper.processVideoBatch`: each url is scraped inside its own
try/catch — a failure is logged and the loop continues with the next url,
so only successful scrapes land in `results`. -/
def processVideoBatch (scrapeVideo : String → Except ScrapeError VideoInfo)
    (urls : List String) : List VideoInfo :=
  urls.foldl
    (fun results u =>
      match scrapeVideo u with
      | .ok v => results ++ [v]
      | .error _ => results)
    []

/-- Recursion worker for `batchesOf5`; the fuel only bounds the recursion
depth and `batchesOf5` passes enough of it (each step consumes at least
one url, so `l.length` suffices). -/
def batchesGo (fuel : Nat) (l : List String) : List (List String) :=
  match fuel with
  | 0 => []
  | fuel' + 1 =>
    if l.isEmpty then [] else l.take 5 :: batchesGo fuel' (l.drop 5)

/-- The `for (let i = 0; i < videoLinks.length; i += batchSize)` loop of
`scrapeChannelWithVideos` with `batchSize = 5`: consecutive slices of at
most five urls. -/
def batchesOf5 (l : List String) : List (List String) :=
  batchesGo l.length l

/-- The loop of `scrapeChannelWithVideos` collecting videos: run `processVideoBatch`
on every batch and concatenate. -/
def scrapeChannelVideos (scrapeVideo : String → Except ScrapeError VideoInfo)
    (videoLinks : List String) : List VideoInfo :=
  (batchesOf5 videoLinks).foldl
    (fun videos batch => videos ++ processVideoBatch scrapeVideo batch)
    []

/-- The `for (const video of videos)` loop of the process-channel route.
Per video it stores the row, fetches the transcript and ingests into the
vector database; there is no per-video try/catch, so the first failure
aborts the loop and propagates to the route's outer catch (the request
fails).  `ingest` bundles the per-video work; the result is the list of
video ids that were fully ingested plus the aborting error, if any. -/
def processChannelVideos (ingest : VideoInfo → Except IngestError Unit) :
    List VideoInfo → List String × Option IngestError
  | [] => ([], none)
  | v :: vs =>
    match ingest v with
    | .error e => ([], some e)
    | .ok _ =>
      let r := processChannelVideos ingest vs
      (v.videoId :: r.1, r.2)

/-! ## Concrete inputs used in closed statements -/

/-- A sample `processVideoContent` metadata argument. -/
def exMetaA : ProcessMeta :=
  { channelName := "Chan"
    url := "https://www.youtube.com/watch?v=v1"
    viewCount := none
    uploadDate := none }

/-- A sample `processComments` metadata argument. -/
def exCMeta : CommentsMeta :=
  { channelName := "Chan", url := "https://www.youtube.com/watch?v=v1" }

/-- A transcript-derived citation for video `v1`. -/
def exCiteA : SourceCitation :=
  { videoId := "v1", videoTitle := "Video One", channelName := "Chan"
    url := "https://www.youtube.com/watch?v=v1", source := "transcript"
    timestamp := none }

/-- A description-derived citation for the same video `v1`. -/
def exCiteB : SourceCitation :=
  { videoId := "v1", videoTitle := "Video One", channelName := "Chan"
    url := "https://www.youtube.com/watch?v=v1", source := "description"
    timestamp := none }

/-- The chunk batch one sample `processVideoContent` call produces. -/
def exBatchDocs : List Document :=
  processVideoContentDocs "v1" "c1" "T" "hello world" "" exMetaA

/-- A transcript chunk whose passage begins with a `[125s]` marker; as
everywhere in this ingestion pipeline, its `timestamp` metadata field was
never set. -/
def exTransDoc : Document :=
  { pageContent := "[125s] welcome"
    metadata :=
      { videoId := "v1", channelId := "c1", videoTitle := "Video One"
        channelName := "Chan", url := "https://www.youtube.com/watch?v=v1"
        viewCount := none, uploadDate := none, likeCount := none
        author := none, timestamp := none, source := "transcript" } }

/-- A description chunk of the same video `v1`. -/
def exDescDoc : Document :=
  { pageContent := "A test video."
    metadata :=
      { videoId := "v1", channelId := "c1", videoTitle := "Video One"
        channelName := "Chan", url := "https://www.youtube.com/watch?v=v1"
        viewCount := none, uploadDate := none, likeCount := none
        author := none, timestamp := none, source := "description" } }

/-- A metadata-store lookup that knows video `v1`. -/
def exGetVideo : String → Option VideoDetails :=
  fun vid =>
    if vid = "v1" then
      some { video_id := "v1", title := "Video One"
             url := "https://www.youtube.com/watch?v=v1" }
    else none

/-- A citation whose `timestamp` metadata carries a leading `[125s]`
marker. -/
def exCiteTs : SourceCitation :=
  { videoId := "v1", videoTitle := "Video One", channelName := "Chan"
    url := "original", source := "transcript"
    timestamp := some "[125s] welcome" }

/-- Two scraped videos of one channel. -/
def exVidA : VideoInfo :=
  { videoId := "v1", title := "Video One"
    url := "https://www.youtube.com/watch?v=v1", channelId := "c1" }

/-- Second scraped video of the same channel. -/
def exVidB : VideoInfo :=
  { videoId := "v2", title := "Video Two"
    url := "https://www.youtube.com/watch?v=v2", channelId := "c1" }

/-- A per-video ingestion action that fails for `v1` and succeeds for
every other video. -/
def exIngest : VideoInfo → Except IngestError Unit :=
  fun v => if v.videoId = "v1" then .error .indexUnavailable else .ok ()

/-- A 1001-character title, longer than the 1000-character chunk size. -/
def bigTitle : String := String.mk (List.replicate 1001 'a')

/-- A scrape action that fails on the url `"bad"` and otherwise yields a
fixed video. -/
def exScrape : String → Except ScrapeError VideoInfo :=
  fun u => if u = "bad" then .error (.scrapeFailed "http 404") else .ok exVidA

/-- A one-document vector store scored by passage length. -/
def exStore : VectorStore :=
  { docs := [exTransDoc], score := fun _ d => (d.pageContent.length : ℚ) }

/-! ## Splitter lemmas -/

/-- A string that fits in the window is one single chunk. -/
theorem windows_eq_single {l : List Char} (h : l.length ≤ 1000) :
    windows l = [l] := by
  unfold windows
  cases hl : l.length with
  | zero => rfl
  | succ n => simp [windowsGo, h]

/-- The splitter worker never returns an empty chunk list. -/
theorem windowsGo_length_pos (fuel : Nat) (l : List Char) :
    1 ≤ (windowsGo fuel l).length := by
  cases fuel with
  | zero => simp [windowsGo]
  | succ n =>
    simp only [windowsGo]
    split <;> simp

/-- A string longer than the window is split into at least two chunks. -/
theorem windows_two_le {l : List Char} (h : 1000 < l.length) :
    2 ≤ (windows l).length := by
  unfold windows
  cases hl : l.length with
  | zero => omega
  | succ n =>
    simp only [windowsGo]
    rw [if_neg (by omega)]
    simp only [List.length_cons]
    have := windowsGo_length_pos n (l.drop 800)
    omega

/-- A string's `s.length` unfolds to the length of its character list. -/
theorem string_length_data (s : String) : s.length = s.data.length := rfl

/-! ## Ingestion-effect lemmas -/

/-- The effect of `processVideoContent` on a live store is appending the
purely computed chunk batch. -/
theorem processVideoContent_some (s : List Document)
    (videoId channelId title transcript description : String)
    (meta : ProcessMeta) :
    processVideoContent (some s) videoId channelId title transcript description meta
      = .ok (some (s ++ processVideoContentDocs videoId channelId title transcript description meta)) := by
  unfold processVideoContent processVideoContentDocs addIfStore addDocuments
  by_cases h1 : transcript = "" <;> by_cases h2 : description = "" <;>
    cases htd : createDocuments title (videoMeta videoId channelId title meta "title") <;>
    simp [h1, h2, htd, List.append_assoc]

/-- Folding the per-comment step over a live store appends the purely
computed comment chunks. -/
theorem processComments_foldl (videoId channelId title : String)
    (meta : CommentsMeta) (comments : List CommentInput) :
    ∀ s : List Document,
      comments.foldl
        (fun st c =>
          if c.content = "" then st
          else addIfStore st
            (createDocuments (c.author ++ ": " ++ c.content)
              (commentMeta videoId channelId title meta c)))
        (some s)
      = some (s ++ processCommentsDocs videoId channelId title comments meta) := by
  induction comments with
  | nil => intro s; simp [processCommentsDocs]
  | cons c cs ih =>
    intro s
    simp only [List.foldl_cons, processCommentsDocs, List.foldr_cons]
    by_cases hc : c.content = ""
    · simpa [hc, processCommentsDocs] using ih s
    · simp only [hc, if_neg, addIfStore, addDocuments, Option.map_some]
      simpa [hc, processCommentsDocs, List.append_assoc] using
        ih (s ++ createDocuments (c.author ++ ": " ++ c.content)
          (commentMeta videoId channelId title meta c))

/-- Running `processComments` on a live store likewise only appends. -/
theorem processComments_some (s : List Document)
    (videoId channelId title : String) (comments : List CommentInput)
    (meta : CommentsMeta) :
    processComments (some s) videoId channelId title comments meta
      = .ok (some (s ++ processCommentsDocs videoId channelId title comments meta)) := by
  unfold processComments
  by_cases h : comments.isEmpty
  · have : comments = [] := List.isEmpty_iff.mp h
    subst this
    simp [processCommentsDocs]
  · simp [h, processComments_foldl]

/-- Rewriting `processCommentsDocs` in filter form: exactly the comments with
non-empty content contribute, each rendered `"{author}: {content}"`. -/
theorem processCommentsDocs_filter (videoId channelId title : String)
    (comments : List CommentInput) (meta : CommentsMeta) :
    processCommentsDocs videoId channelId title comments meta
      = (comments.filter (fun c => !(c.content == ""))).foldr
          (fun c acc =>
            createDocuments (c.author ++ ": " ++ c.content)
              (commentMeta videoId channelId title meta c) ++ acc)
          [] := by
  induction comments with
  | nil => rfl
  | cons c cs ih =>
    by_cases hc : c.content = ""
    · simp only [processCommentsDocs, List.foldr_cons, List.filter_cons, hc] at ih ⊢
      simpa using ih
    · simp only [processCommentsDocs, List.foldr_cons, List.filter_cons, hc] at ih ⊢
      simp only [ih]
      simp [hc]

/-! ## Claim C2 -/

/-- Claim C2 (counterexample): the normalizer is claimed to fail with a
`ValidationError` when `videoId` or `channelId` is the empty string, but
both `processVideoContent` and `processComments` succeed on empty ids —
the source performs no validation at all. -/
theorem c2_counterexample :
    (processVideoContent (some []) "" "" "T" "some transcript" "desc" exMetaA).isOk = true
    ∧ (processComments (some []) "" "" "T" [⟨"alice", "nice video", none⟩] exCMeta).isOk = true :=
  ⟨by decide, by decide⟩

/-- Claim C2 (amended): `processVideoContent` and `processComments` never
raise — for every input, empty ids included, they return `.ok`, and their
effect on a live store is to append the chunk batch computed purely from
the arguments (so they are not pure: they write to the vector store). -/
theorem c2_amended (s : List Document)
    (videoId channelId title transcript description : String)
    (meta : ProcessMeta) (comments : List CommentInput)
    (cmeta : CommentsMeta) :
    processVideoContent (some s) videoId channelId title transcript description meta
      = .ok (some (s ++ processVideoContentDocs videoId channelId title transcript description meta))
    ∧ processComments (some s) videoId channelId title comments cmeta
      = .ok (some (s ++ processCommentsDocs videoId channelId title comments cmeta)) :=
  ⟨processVideoContent_some s videoId channelId title transcript description meta,
   processComments_some s videoId channelId title comments cmeta⟩

/-! ## Claim C3 -/

/-- Claim C3 (counterexample): upserting the same batch twice does not
leave the index unchanged — the second `processVideoContent` call appends
the batch again, so after the second call every chunk of the batch is
live twice. -/
theorem c3_counterexample :
    processVideoContent (some []) "v1" "c1" "T" "hello world" "" exMetaA
      = .ok (some exBatchDocs)
    ∧ processVideoContent (some exBatchDocs) "v1" "c1" "T" "hello world" "" exMetaA
      = .ok (some (exBatchDocs ++ exBatchDocs))
    ∧ exBatchDocs ++ exBatchDocs ≠ exBatchDocs := by
  refine ⟨rfl, rfl, fun heq => ?_⟩
  have hlen : exBatchDocs.length = 2 := rfl
  have := congrArg List.length heq
  simp only [List.length_append, hlen] at this
  omega

/-- Claim C3 (amended): re-ingesting the same batch appends rather than
overwrites: the first call extends the store by the batch's chunks, the
second call appends the very same chunks again, and whenever the batch is
non-empty the store after the second call differs from the store after the
first (duplicate live entries are created). -/
theorem c3_amended (s : List Document)
    (videoId channelId title transcript description : String)
    (meta : ProcessMeta) :
    processVideoContent (some s) videoId channelId title transcript description meta
      = .ok (some (s ++ processVideoContentDocs videoId channelId title transcript description meta))
    ∧ processVideoContent
        (some (s ++ processVideoContentDocs videoId channelId title transcript description meta))
        videoId channelId title transcript description meta
      = .ok (some ((s ++ processVideoContentDocs videoId channelId title transcript description meta)
          ++ processVideoContentDocs videoId channelId title transcript description meta))
    ∧ (processVideoContentDocs videoId channelId title transcript description meta ≠ [] →
        (s ++ processVideoContentDocs videoId channelId title transcript description meta)
          ++ processVideoContentDocs videoId channelId title transcript description meta
        ≠ s ++ processVideoContentDocs videoId channelId title transcript description meta) := by
  refine ⟨processVideoContent_some s videoId channelId title transcript description meta,
    processVideoContent_some _ videoId channelId title transcript description meta, ?_⟩
  intro hne heq
  have hlen := congrArg List.length heq
  simp only [List.length_append] at hlen
  exact hne (List.length_eq_zero.mp (by omega))

/-- Witness for C3 (amended) at a concrete non-empty batch. -/
theorem c3_amended_witness :
    exBatchDocs ≠ []
    ∧ ([] ++ exBatchDocs) ++ exBatchDocs ≠ [] ++ exBatchDocs :=
  ⟨by decide,
   (c3_amended [] "v1" "c1" "T" "hello world" "" exMetaA).2.2 (by decide)⟩

/-! ## Claim C7 -/

/-- Claim C7 (counterexample): a 1001-character title is not emitted as
exactly one chunk — the splitter cuts it. -/
theorem c7_counterexample :
    (createDocuments bigTitle (videoMeta "v1" "c1" bigTitle exMetaA "title")).length ≠ 1 := by
  have hlen : (1000 : Nat) < bigTitle.data.length := by
    show (1000 : Nat) < (List.replicate 1001 'a').length
    rw [List.length_replicate]
    omega
  have hne : bigTitle ≠ "" := by decide
  have h2 : 2 ≤ (createDocuments bigTitle (videoMeta "v1" "c1" bigTitle exMetaA "title")).length := by
    unfold createDocuments splitText
    rw [if_neg hne]
    simp only [List.length_map]
    exact windows_two_le hlen
  omega

/-- Claim C7 (amended): a non-empty title is emitted as exactly one chunk
(the trimmed title) precisely when it fits within the 1000-character chunk
size; a longer title is split into at least two chunks. -/
theorem c7_amended (videoId channelId : String) (title : String)
    (meta : ProcessMeta) (h : title ≠ "") :
    (title.data.length ≤ 1000 →
      createDocuments title (videoMeta videoId channelId title meta "title")
        = [{ pageContent := title.trim
             metadata := videoMeta videoId channelId title meta "title" }])
    ∧ (1000 < title.data.length →
      2 ≤ (createDocuments title (videoMeta videoId channelId title meta "title")).length) := by
  constructor
  · intro hle
    unfold createDocuments splitText
    rw [if_neg h, windows_eq_single hle]
    rfl
  · intro hgt
    unfold createDocuments splitText
    rw [if_neg h]
    simp only [List.length_map]
    exact windows_two_le hgt

/-- Witness for C7 (amended) at a concrete short title. -/
theorem c7_amended_witness :
    ("Test Video" : String) ≠ ""
    ∧ ((("Test Video" : String).data.length ≤ 1000 →
        createDocuments "Test Video" (videoMeta "v1" "c1" "Test Video" exMetaA "title")
          = [{ pageContent := ("Test Video" : String).trim
               metadata := videoMeta "v1" "c1" "Test Video" exMetaA "title" }])
      ∧ (1000 < ("Test Video" : String).data.length →
        2 ≤ (createDocuments "Test Video" (videoMeta "v1" "c1" "Test Video" exMetaA "title")).length)) :=
  ⟨by decide, c7_amended "v1" "c1" "Test Video" exMetaA (by decide)⟩

/-! ## Claim C8 -/

/-- Claim C8: every comment with non-empty content is rendered as
`"{author}: {content}"` and split into its chunks; comments with empty
content are skipped and contribute nothing. -/
theorem c8_comments_rendered (s : List Document) (videoId channelId title : String)
    (comments : List CommentInput) (meta : CommentsMeta) :
    processComments (some s) videoId channelId title comments meta
      = .ok (some (s ++ (comments.filter (fun c => !(c.content == ""))).foldr
          (fun c acc =>
            createDocuments (c.author ++ ": " ++ c.content)
              (commentMeta videoId channelId title meta c) ++ acc)
          [])) := by
  rw [processComments_some, processCommentsDocs_filter]

/-! ## Scraper batching lemmas -/

/-- Folding the per-url scrape step starting from any accumulator appends
the from-scratch result. -/
theorem processVideoBatch_go (f : String → Except ScrapeError VideoInfo) :
    ∀ (l : List String) (acc : List VideoInfo),
      l.foldl (fun results u =>
        match f u with
        | .ok v => results ++ [v]
        | .error _ => results) acc
      = acc ++ processVideoBatch f l := by
  intro l
  induction l with
  | nil =>
    intro acc
    simp [processVideoBatch]
  | cons u us ih =>
    intro acc
    simp only [processVideoBatch, List.foldl_cons]
    cases hf : f u with
    | ok v =>
      simp only [hf]
      rw [ih (acc ++ [v]), ih ([] ++ [v])]
      simp
    | error e =>
      simp only [hf]
      rw [ih acc]
      rfl

/-- The scrape loop distributes over url-list concatenation. -/
theorem processVideoBatch_append (f : String → Except ScrapeError VideoInfo)
    (l1 l2 : List String) :
    processVideoBatch f (l1 ++ l2)
      = processVideoBatch f l1 ++ processVideoBatch f l2 := by
  unfold processVideoBatch
  rw [List.foldl_append]
  exact processVideoBatch_go f l2 _

/-- Every batch the worker produces holds at most five urls. -/
theorem batchesGo_mem_length :
    ∀ (fuel : Nat) (l : List String), ∀ b ∈ batchesGo fuel l, b.length ≤ 5 := by
  intro fuel
  induction fuel with
  | zero =>
    intro l b hb
    simp [batchesGo] at hb
  | succ n ih =>
    intro l b hb
    simp only [batchesGo] at hb
    by_cases he : l.isEmpty
    · simp [he] at hb
    · simp only [he, Bool.false_eq_true, if_false, List.mem_cons] at hb
      rcases hb with hb | hb
      · subst hb
        simp [List.length_take]
      · exact ih _ _ hb

/-- Every batch of `batchesOf5` holds at most five urls. -/
theorem batchesOf5_mem_length (l : List String) :
    ∀ b ∈ batchesOf5 l, b.length ≤ 5 :=
  batchesGo_mem_length l.length l

/-! ## Claim C6 -/

/-- Claim C6 (counterexample): one video's ingestion failure does abort
the channel-level ingestion — with two videos where only the first one's
ingestion fails, the process-channel loop stops with the error and the
second video (whose ingestion would succeed) is never processed. -/
theorem c6_counterexample :
    exIngest exVidB = .ok ()
    ∧ processChannelVideos exIngest [exVidA, exVidB] = ([], some .indexUnavailable) :=
  ⟨rfl, rfl⟩

/-- Claim C6 (amended): channel scraping runs in batches of at most five
urls, and within a batch a per-video scraping failure is isolated (the
failed url contributes nothing and its siblings are still scraped); but in
the process-channel route's per-video loop an ingestion failure aborts the
remaining videos and the whole request. -/
theorem c6_amended (scrape : String → Except ScrapeError VideoInfo)
    (links pre post : List String) (badUrl : String) (e : ScrapeError)
    (ingest : VideoInfo → Except IngestError Unit) (v : VideoInfo)
    (vs : List VideoInfo) (ie : IngestError)
    (hbad : scrape badUrl = .error e) (hing : ingest v = .error ie) :
    (∀ b ∈ batchesOf5 links, b.length ≤ 5)
    ∧ processVideoBatch scrape (pre ++ badUrl :: post)
        = processVideoBatch scrape pre ++ processVideoBatch scrape post
    ∧ processChannelVideos ingest (v :: vs) = ([], some ie) := by
  refine ⟨batchesOf5_mem_length links, ?_, ?_⟩
  · have : pre ++ badUrl :: post = (pre ++ [badUrl]) ++ post := by
      simp
    rw [this, processVideoBatch_append, processVideoBatch_append]
    have hone : processVideoBatch scrape [badUrl] = [] := by
      simp [processVideoBatch, hbad]
    rw [hone, List.append_nil]
  · simp [processChannelVideos, hing]

/-- Witness for C6 (amended) at concrete urls, videos and actions. -/
theorem c6_amended_witness :
    exScrape "bad" = .error (.scrapeFailed "http 404")
    ∧ exIngest exVidA = .error .indexUnavailable
    ∧ ((∀ b ∈ batchesOf5 ["u1", "u2", "u3", "u4", "u5", "u6"], b.length ≤ 5)
        ∧ processVideoBatch exScrape (["u1"] ++ "bad" :: ["u2"])
            = processVideoBatch exScrape ["u1"] ++ processVideoBatch exScrape ["u2"]
        ∧ processChannelVideos exIngest (exVidA :: [exVidB])
            = ([], some .indexUnavailable)) :=
  ⟨rfl, rfl,
   c6_amended exScrape ["u1", "u2", "u3", "u4", "u5", "u6"] ["u1"] ["u2"] "bad"
     (.scrapeFailed "http 404") exIngest exVidA [exVidB] .indexUnavailable rfl rfl⟩

/-! ## Claim C10 -/

/-- Claim C10: the constructor merges its configuration with the
falsy-coalescing `||`, so an explicitly supplied `temperature: 0` or
`maxTokens: 0` is silently replaced by the defaults 0.7 and 1000, and no
configuration can make the effective temperature 0. -/
theorem c10_falsy_defaults (cfg : ConversationalAIConfig) :
    (cfg.temperature = some 0 → (mkModelOpts cfg).temperature = 7 / 10)
    ∧ (cfg.maxTokens = some 0 → (mkModelOpts cfg).maxTokens = 1000)
    ∧ (mkModelOpts cfg).temperature ≠ 0 := by
  refine ⟨?_, ?_, ?_⟩
  · intro h
    simp [mkModelOpts, jsOrQ, h]
  · intro h
    simp [mkModelOpts, jsOrNat, h]
  · simp only [mkModelOpts, jsOrQ]
    cases cfg.temperature with
    | none => norm_num
    | some v =>
      by_cases hv : v = 0
      · simp [hv]
      · simp [hv]

/-- Witness for C10 at a configuration explicitly supplying zero for both
temperature and maxTokens. -/
theorem c10_falsy_defaults_witness :
    (mkModelOpts ⟨"key", none, some 0, some 0⟩).temperature = 7 / 10
    ∧ (mkModelOpts ⟨"key", none, some 0, some 0⟩).maxTokens = 1000 :=
  ⟨(c10_falsy_defaults ⟨"key", none, some 0, some 0⟩).1 rfl,
   (c10_falsy_defaults ⟨"key", none, some 0, some 0⟩).2.1 rfl⟩

/-! ## Search lemmas -/

/-- The store search returns at most `k` documents. -/
theorem storeSearch_length (vs : VectorStore) (q : String) (k : Nat) :
    (storeSearch vs q k).length ≤ k := by
  unfold storeSearch
  exact List.length_take_le k _

/-- The store search results are ordered by descending similarity. -/
theorem storeSearch_sorted (vs : VectorStore) (q : String) (k : Nat) :
    (storeSearch vs q k).Pairwise
      (fun a b => vs.score q b ≤ vs.score q a) := by
  unfold storeSearch
  have hs : (vs.docs.insertionSort
      (fun a b => vs.score q b ≤ vs.score q a)).Sorted
      (fun a b => vs.score q b ≤ vs.score q a) := by
    haveI : IsTotal Document (fun a b => vs.score q b ≤ vs.score q a) :=
      ⟨fun a b => le_total _ _⟩
    haveI : IsTrans Document (fun a b => vs.score q b ≤ vs.score q a) :=
      ⟨fun a b c h1 h2 => le_trans h2 h1⟩
    exact List.sorted_insertionSort _ _
  exact hs.sublist (List.take_sublist k _)

/-! ## Claim C9 -/

/-- Claim C9: `similaritySearch` returns at most `k` results ordered by
descending similarity, and when the underlying store is not yet
constructed it lazily initializes it first and queries that store. -/
theorem c9_similarity_search (vs : Option VectorStore) (ini : VectorStore)
    (q : String) (k : Nat) :
    ((similaritySearch vs ini q k).2.length ≤ k)
    ∧ ((similaritySearch vs ini q k).2.Pairwise
        (fun a b => (vs.getD ini).score q b ≤ (vs.getD ini).score q a))
    ∧ (vs = none →
        (similaritySearch vs ini q k).1 = some ini
        ∧ (similaritySearch vs ini q k).2 = storeSearch ini q k) := by
  cases vs with
  | none =>
    exact ⟨storeSearch_length ini q k, storeSearch_sorted ini q k,
      fun _ => ⟨rfl, rfl⟩⟩
  | some s =>
    exact ⟨storeSearch_length s q k, storeSearch_sorted s q k,
      fun h => nomatch h⟩

/-- Witness for C9 at a concrete uninitialized database and store. -/
theorem c9_similarity_search_witness :
    ((similaritySearch none exStore "q" 1).2.length ≤ 1)
    ∧ ((similaritySearch none exStore "q" 1).2.Pairwise
        (fun a b => ((none : Option VectorStore).getD exStore).score "q" b
          ≤ ((none : Option VectorStore).getD exStore).score "q" a))
    ∧ ((none : Option VectorStore) = none →
        (similaritySearch none exStore "q" 1).1 = some exStore
        ∧ (similaritySearch none exStore "q" 1).2 = storeSearch exStore "q" 1) :=
  c9_similarity_search none exStore "q" 1

/-! ## Claim C4 -/

/-- Claim C4 (counterexample): when the chain is not yet constructed and
the lazy initialization fails (the vector index is unavailable), the
failure happens outside `processMessage`'s try/catch and the raw exception
propagates to the caller instead of a degraded well-formed result. -/
theorem c4_counterexample :
    processMessage (.error .indexUnavailable) (.ok ⟨"fine answer", none⟩)
      { chainReady := false, memory := [] } "What is this about?"
      = .error .indexUnavailable :=
  rfl

/-- Claim C4 (amended): when the chain is already constructed (or the lazy
construction succeeds), any failure of the chain call is caught and
converted to the fixed apologetic answer with an empty source list, and
the session memory is left unchanged; only a failing lazy initialization
escapes as an exception. -/
theorem c4_amended (ini : Except EngineError Unit)
    (call : Except EngineError ChainResult) (st : EngineState) (msg : String)
    (e : EngineError)
    (hready : st.chainReady = true ∨ ini = .ok ())
    (hfail : call = .error e) :
    processMessage ini call st msg
      = .ok ({ chainReady := true, memory := st.memory }, apologeticResponse, []) := by
  unfold processMessage
  rcases hready with h | h
  · simp [h, hfail]
  · cases hst : st.chainReady <;> simp [h, hfail, hst]

/-- Witness for C4 (amended): a ready engine whose generation call fails
answers apologetically, cites nothing and keeps its memory. -/
theorem c4_amended_witness :
    (({ chainReady := true, memory := [⟨.user, "hi"⟩] } : EngineState).chainReady = true
      ∨ (Except.ok () : Except EngineError Unit) = .ok ())
    ∧ processMessage (.ok ()) (.error .generationFailure)
        { chainReady := true, memory := [⟨.user, "hi"⟩] } "q"
        = .ok ({ chainReady := true, memory := [⟨.user, "hi"⟩] }, apologeticResponse, []) :=
  ⟨Or.inl rfl,
   c4_amended (.ok ()) (.error .generationFailure)
     { chainReady := true, memory := [⟨.user, "hi"⟩] } "q" .generationFailure
     (Or.inl rfl) rfl⟩

/-! ## Timestamp-regex lemmas -/

/-- Running `takeWhile isDigit` consumes exactly a leading all-digit block that is
terminated by `'s'`. -/
theorem takeWhile_digits_append (ds r : List Char)
    (h : ∀ c ∈ ds, c.isDigit = true) :
    (ds ++ 's' :: r).takeWhile Char.isDigit = ds := by
  induction ds with
  | nil =>
    have hs : Char.isDigit 's' = false := rfl
    simp [List.takeWhile_cons, hs]
  | cons d ds ih =>
    have hd : d.isDigit = true := h d (List.mem_cons_self d ds)
    simp only [List.cons_append, List.takeWhile_cons, hd, if_true]
    rw [ih (fun c hc => h c (List.mem_cons_of_mem d hc))]

/-- Running `dropWhile isDigit` drops exactly a leading all-digit block that is
terminated by `'s'`. -/
theorem dropWhile_digits_append (ds r : List Char)
    (h : ∀ c ∈ ds, c.isDigit = true) :
    (ds ++ 's' :: r).dropWhile Char.isDigit = 's' :: r := by
  induction ds with
  | nil =>
    have hs : Char.isDigit 's' = false := rfl
    simp [List.dropWhile_cons, hs]
  | cons d ds ih =>
    have hd : d.isDigit = true := h d (List.mem_cons_self d ds)
    simp only [List.cons_append, List.dropWhile_cons, hd, if_true]
    exact ih (fun c hc => h c (List.mem_cons_of_mem d hc))

/-- The regex matches at the head of a string beginning with a
`[<digits>s]` marker, capturing the digits. -/
theorem matchTsAt_leading (ds r : List Char) (hne : ds ≠ [])
    (h : ∀ c ∈ ds, c.isDigit = true) :
    matchTsAt ('[' :: (ds ++ 's' :: ']' :: r)) = some (digitsToNat ds) := by
  have hemp : ds.isEmpty = false := by
    cases ds with
    | nil => exact absurd rfl hne
    | cons a as => rfl
  simp only [matchTsAt, if_true]
  rw [takeWhile_digits_append ds (']' :: r) h,
    dropWhile_digits_append ds (']' :: r) h, hemp]
  simp

/-- The first regex match over a string with a leading `[<digits>s]`
marker captures precisely those leading digits. -/
theorem findTs_leading (ds r : List Char) (hne : ds ≠ [])
    (h : ∀ c ∈ ds, c.isDigit = true) :
    findTs ('[' :: (ds ++ 's' :: ']' :: r)) = some (digitsToNat ds) := by
  unfold findTs
  rw [matchTsAt_leading ds r hne h]

/-! ## Claim C5 -/

/-- Claim C5 (counterexample): a transcript-sourced citation whose
referenced passage begins with `[125s]` gets no `2:05` timestamp and no
`&t=125` url suffix — this ingestion pipeline never sets the `timestamp`
metadata field the route's conversion is keyed on, so even with the video
present in the metadata store the citation is left unconverted. -/
theorem c5_counterexample :
    exTransDoc.metadata.source = "transcript"
    ∧ exTransDoc.pageContent = "[125s] welcome"
    ∧ exGetVideo (docToSource exTransDoc).videoId
        = some { video_id := "v1", title := "Video One"
                 url := "https://www.youtube.com/watch?v=v1" }
    ∧ (enhanceSource exGetVideo (docToSource exTransDoc)).timestamp = none
    ∧ hasSub tParam (enhanceSource exGetVideo (docToSource exTransDoc)).url.data = false :=
  ⟨rfl, rfl, rfl, by decide, by decide⟩

/-- Claim C5 (amended): the route converts from the citation's `timestamp`
metadata field, and only when the metadata store has the video: if the
citation's `timestamp` begins with a `[<seconds>s]` marker and `getVideo`
returns the stored row, the timestamp is rewritten to `M:SS` and
`&t=<wholeSeconds>` is appended to the row's url unless it already
contains `&t=`. -/
theorem c5_amended (getVideo : String → Option VideoDetails)
    (s : SourceCitation) (vd : VideoDetails) (ts : String)
    (ds rest : List Char)
    (hvid : ¬ s.videoId = "")
    (hget : getVideo s.videoId = some vd)
    (hts : s.timestamp = some ts)
    (hdata : ts.data = '[' :: (ds ++ 's' :: ']' :: rest))
    (hne : ds ≠ []) (hdig : ∀ c ∈ ds, c.isDigit = true) :
    (enhanceSource getVideo s).timestamp
      = some (toString (digitsToNat ds / 60) ++ ":"
          ++ padStart2 (toString (digitsToNat ds % 60)))
    ∧ (hasSub tParam vd.url.data = false →
        (enhanceSource getVideo s).url = vd.url ++ "&t=" ++ toString (digitsToNat ds))
    ∧ (hasSub tParam vd.url.data = true →
        (enhanceSource getVideo s).url = vd.url) := by
  have hts' : ¬ ts = "" := by
    intro h0
    rw [h0] at hdata
    simp at hdata
  have hfind : findTs ts.data = some (digitsToNat ds) := by
    rw [hdata]
    exact findTs_leading ds rest hne hdig
  refine ⟨?_, ?_, ?_⟩
  · simp only [enhanceSource, hvid, hget, hts, hts', hfind, if_false]
    split <;> rfl
  · intro hurl
    simp only [enhanceSource, hvid, hget, hts, hts', hfind, if_false]
    simp [hurl]
  · intro hurl
    simp only [enhanceSource, hvid, hget, hts, hts', hfind, if_false]
    simp [hurl]

/-- Witness for C5 (amended): a citation whose timestamp metadata is
`"[125s] welcome"` and whose video is in the store is rewritten to `2:05`
with `&t=125` appended to the stored url. -/
theorem c5_amended_witness :
    (enhanceSource exGetVideo exCiteTs).timestamp
      = some (toString (digitsToNat ['1', '2', '5'] / 60) ++ ":"
          ++ padStart2 (toString (digitsToNat ['1', '2', '5'] % 60)))
    ∧ (enhanceSource exGetVideo exCiteTs).timestamp = some "2:05"
    ∧ (enhanceSource exGetVideo exCiteTs).url
        = "https://www.youtube.com/watch?v=v1" ++ "&t=" ++ toString (digitsToNat ['1', '2', '5']) := by
  have h := c5_amended exGetVideo exCiteTs
    { video_id := "v1", title := "Video One"
      url := "https://www.youtube.com/watch?v=v1" }
    "[125s] welcome" ['1', '2', '5'] (" welcome".data)
    (by decide) rfl rfl rfl (by decide) (by decide)
  exact ⟨h.1, by decide, h.2.1 (by decide)⟩

/-! ## JavaScript-Map dedup lemmas -/

/-- One map insertion evolves the key list by `keyStep`. -/
theorem jsMapInsert_keys (m : List (String × SourceCitation)) (x : SourceCitation) :
    (jsMapInsert m x).map Prod.fst = keyStep (m.map Prod.fst) x.videoId := by
  unfold jsMapInsert keyStep
  cases hany : m.any (fun p => p.1 = x.videoId) with
  | true =>
    have hmem : x.videoId ∈ m.map Prod.fst := by
      simp only [List.any_eq_true, decide_eq_true_eq] at hany
      obtain ⟨p, hp, he⟩ := hany
      exact List.mem_map.mpr ⟨p, hp, he⟩
    rw [if_pos rfl, if_pos hmem, List.map_map]
    apply List.map_congr_left
    intro p _
    by_cases hp : p.1 = x.videoId <;> simp [hp]
  | false =>
    have hmem : x.videoId ∉ m.map Prod.fst := by
      intro hmem
      obtain ⟨p, hp, he⟩ := List.mem_map.mp hmem
      simp only [List.any_eq_false, decide_eq_true_eq] at hany
      exact hany p hp he
    rw [if_neg (by simp), if_neg hmem, List.map_append]
    rfl

/-- Folding map insertions evolves the key list by folding `keyStep`. -/
theorem foldl_jsMapInsert_keys (l : List SourceCitation) :
    ∀ m : List (String × SourceCitation),
      (l.foldl jsMapInsert m).map Prod.fst
        = (l.map (fun c => c.videoId)).foldl keyStep (m.map Prod.fst) := by
  induction l with
  | nil => intro m; rfl
  | cons x xs ih =>
    intro m
    simp only [List.foldl_cons, List.map_cons]
    rw [ih (jsMapInsert m x), jsMapInsert_keys]

/-- The key list of the built map is the first-occurrence dedup of the
videoIds. -/
theorem jsMapOfSources_keys (s : List SourceCitation) :
    (jsMapOfSources s).map Prod.fst = dedupKeysFirst (s.map (fun c => c.videoId)) := by
  unfold jsMapOfSources dedupKeysFirst
  exact foldl_jsMapInsert_keys s []

/-- Every pair in the map keys its value's own videoId. -/
theorem jsMapInsert_inv (m : List (String × SourceCitation)) (x : SourceCitation)
    (hm : ∀ p ∈ m, p.1 = p.2.videoId) :
    ∀ p ∈ jsMapInsert m x, p.1 = p.2.videoId := by
  unfold jsMapInsert
  cases hany : m.any (fun p => p.1 = x.videoId) with
  | true =>
    rw [if_pos rfl]
    intro p hp
    obtain ⟨q, hq, he⟩ := List.mem_map.mp hp
    by_cases hqx : q.1 = x.videoId
    · rw [← he]
      simp [hqx]
    · rw [← he]
      simp only [hqx, if_false]
      exact hm q hq
  | false =>
    rw [if_neg (by simp)]
    intro p hp
    rcases List.mem_append.mp hp with h | h
    · exact hm p h
    · rw [List.mem_singleton.mp h]
  
/-- Every pair in the built map keys its value's own videoId. -/
theorem jsMapOfSources_inv (s : List SourceCitation) :
    ∀ p ∈ jsMapOfSources s, p.1 = p.2.videoId := by
  unfold jsMapOfSources
  suffices h : ∀ (l : List SourceCitation) (m : List (String × SourceCitation)),
      (∀ p ∈ m, p.1 = p.2.videoId) → ∀ p ∈ l.foldl jsMapInsert m, p.1 = p.2.videoId by
    exact h s [] (by simp)
  intro l
  induction l with
  | nil => intro m hm; exact hm
  | cons x xs ih =>
    intro m hm
    simp only [List.foldl_cons]
    exact ih _ (jsMapInsert_inv m x hm)

/-- Folding `keyStep` preserves key distinctness. -/
theorem foldl_keyStep_nodup (l : List String) :
    ∀ acc : List String, acc.Nodup → (l.foldl keyStep acc).Nodup := by
  induction l with
  | nil => intro acc h; exact h
  | cons k ks ih =>
    intro acc h
    simp only [List.foldl_cons]
    apply ih
    unfold keyStep
    by_cases hk : k ∈ acc
    · simp [hk, h]
    · simp [hk, List.nodup_append, h]

/-- First-occurrence dedup yields pairwise-distinct keys. -/
theorem dedupKeysFirst_nodup (l : List String) : (dedupKeysFirst l).Nodup :=
  foldl_keyStep_nodup l [] List.nodup_nil

/-- Appending one citation: it becomes the last occurrence of its own
videoId, other keys are unaffected. -/
theorem lastWith_append_one (k : String) (x : SourceCitation)
    (s : List SourceCitation) :
    lastWith k (s ++ [x]) = if x.videoId = k then some x else lastWith k s := by
  induction s with
  | nil =>
    simp [lastWith]
  | cons c cs ih =>
    simp only [List.cons_append, lastWith, List.append_eq]
    rw [ih]
    by_cases hxk : x.videoId = k <;> simp [hxk]

/-- Map lookup after updating every entry at `kx` finds the new value. -/
theorem lookupA_upd_self (kx : String) (x : SourceCitation) :
    ∀ m : List (String × SourceCitation), m.any (fun p => p.1 = kx) = true →
      lookupA kx (m.map (fun p => if p.1 = kx then (p.1, x) else p)) = some x := by
  intro m
  induction m with
  | nil => intro h; simp at h
  | cons q qs ih =>
    intro h
    simp only [List.map_cons]
    by_cases hq : q.1 = kx
    · simp [lookupA, hq]
    · have h' : (qs.any fun p => p.1 = kx) = true := by
        simp only [List.any_cons, Bool.or_eq_true, decide_eq_true_eq] at h
        rcases h with h | h
        · exact absurd h hq
        · simpa using h
      simp [lookupA, hq, ih h']

/-- Map lookup at a different key is unaffected by the update. -/
theorem lookupA_upd_other (k kx : String) (x : SourceCitation) (hk : k ≠ kx) :
    ∀ m : List (String × SourceCitation),
      lookupA k (m.map (fun p => if p.1 = kx then (p.1, x) else p)) = lookupA k m := by
  intro m
  induction m with
  | nil => rfl
  | cons q qs ih =>
    simp only [List.map_cons]
    by_cases hq : q.1 = kx
    · have hqk : ¬ q.1 = k := fun h => hk (h.symm.trans hq)
      simp [lookupA, hq, hqk, Ne.symm hk, ih]
    · by_cases hqk : q.1 = k
      · simp [lookupA, hq, hqk, hk]
      · simp [lookupA, hq, hqk, ih]

/-- Association lookup distributes over append. -/
theorem lookupA_append_go (k : String) (m m' : List (String × SourceCitation)) :
    lookupA k (m ++ m')
      = match lookupA k m with
        | some v => some v
        | none => lookupA k m' := by
  induction m with
  | nil => simp [lookupA]
  | cons q qs ih =>
    by_cases hq : q.1 = k
    · simp [lookupA, hq]
    · simp [lookupA, hq, ih]

/-- A key no entry carries looks up to nothing. -/
theorem lookupA_none_of_any_false (k : String) :
    ∀ m : List (String × SourceCitation), m.any (fun p => p.1 = k) = false →
      lookupA k m = none := by
  intro m
  induction m with
  | nil => intro _; rfl
  | cons q qs ih =>
    intro h
    simp only [List.any_cons, Bool.or_eq_false_iff, decide_eq_false_iff_not] at h
    simp [lookupA, h.1]
    exact ih h.2

/-- One JavaScript-Map insertion: looking up the inserted key finds the
new value, any other key is untouched. -/
theorem lookupA_jsMapInsert (m : List (String × SourceCitation))
    (x : SourceCitation) (k : String) :
    lookupA k (jsMapInsert m x)
      = if x.videoId = k then some x else lookupA k m := by
  unfold jsMapInsert
  cases hany : m.any (fun p => p.1 = x.videoId) with
  | true =>
    rw [if_pos rfl]
    by_cases hk : x.videoId = k
    · subst hk
      rw [if_pos rfl]
      exact lookupA_upd_self x.videoId x m hany
    · rw [if_neg hk]
      exact lookupA_upd_other k x.videoId x (fun h => hk h.symm) m
  | false =>
    rw [if_neg (by simp)]
    rw [lookupA_append_go]
    by_cases hk : x.videoId = k
    · subst hk
      rw [lookupA_none_of_any_false x.videoId m hany]
      simp [lookupA]
    · rw [if_neg hk]
      cases hlk : lookupA k m with
      | some v => simp
      | none => simp [lookupA, hk]

/-- Building the map over one more citation is one more insertion. -/
theorem jsMapOfSources_append_one (s : List SourceCitation) (x : SourceCitation) :
    jsMapOfSources (s ++ [x]) = jsMapInsert (jsMapOfSources s) x := by
  unfold jsMapOfSources
  rw [List.foldl_append]
  rfl

/-- Looking a key up in the built map finds the last citation carrying it:
the JavaScript `Map` keeps the last-seen value per key. -/
theorem lookupA_jsMap_lastWith (k : String) (s : List SourceCitation) :
    lookupA k (jsMapOfSources s) = lastWith k s := by
  induction s using List.reverseRecOn with
  | nil => rfl
  | append_singleton s x ih =>
    rw [jsMapOfSources_append_one, lookupA_jsMapInsert, lastWith_append_one, ih]

/-- In an association list with pairwise-distinct keys, every entry is
found by looking up its key. -/
theorem lookupA_of_mem (m : List (String × SourceCitation))
    (hnd : (m.map Prod.fst).Nodup) (p : String × SourceCitation) (hp : p ∈ m) :
    lookupA p.1 m = some p.2 := by
  induction m with
  | nil => cases hp
  | cons q qs ih =>
    simp only [List.map_cons, List.nodup_cons] at hnd
    rcases List.mem_cons.mp hp with h | h
    · subst h
      simp [lookupA]
    · have hne : ¬ q.1 = p.1 := by
        intro he
        exact hnd.1 (he ▸ List.mem_map.mpr ⟨p, h, rfl⟩)
      simp only [lookupA, hne, if_false]
      exact ih hnd.2 h

/-! ## Claim C1 -/

/-- Claim C1 (counterexample): when the retrieved chunks hold two entries
for the same video — a transcript chunk first, a description chunk second
— the answer produced by `processMessage` carries exactly one citation for
that videoId, but it is the *second* (last-seen) citation, not the first
occurrence in retrieval-rank order. -/
theorem c1_counterexample :
    (docToSource exTransDoc).videoId = (docToSource exDescDoc).videoId
    ∧ processMessage (.ok ()) (.ok ⟨"ans", some [exTransDoc, exDescDoc]⟩)
        { chainReady := true, memory := [] } "q"
      = .ok ({ chainReady := true
               memory := [{ role := .user, content := "q" },
                          { role := .assistant, content := "ans" }] },
             "ans", [docToSource exDescDoc])
    ∧ docToSource exDescDoc ≠ docToSource exTransDoc :=
  ⟨rfl, rfl, by decide⟩

/-- Claim C1 (amended): the deduplicated source list has at most one
citation per distinct videoId, its videoIds follow first-occurrence
retrieval-rank order, but the citation kept for each videoId is the
*last* occurrence among the retrieved duplicates, not the first. -/
theorem c1_amended (s : List SourceCitation) :
    ((uniqueSources s).map (fun c => c.videoId)
        = dedupKeysFirst (s.map (fun c => c.videoId)))
    ∧ ((uniqueSources s).map (fun c => c.videoId)).Nodup
    ∧ (∀ c, c ∈ uniqueSources s → lastWith c.videoId s = some c) := by
  have hkeys : (uniqueSources s).map (fun c => c.videoId)
      = (jsMapOfSources s).map Prod.fst := by
    unfold uniqueSources
    rw [List.map_map]
    apply List.map_congr_left
    intro p hp
    exact (jsMapOfSources_inv s p hp).symm
  refine ⟨?_, ?_, ?_⟩
  · rw [hkeys, jsMapOfSources_keys]
  · rw [hkeys, jsMapOfSources_keys]
    exact dedupKeysFirst_nodup _
  · intro c hc
    obtain ⟨p, hp, he⟩ := List.mem_map.mp hc
    have h1 : p.1 = c.videoId := by
      rw [jsMapOfSources_inv s p hp, he]
    have hnd : ((jsMapOfSources s).map Prod.fst).Nodup := by
      rw [jsMapOfSources_keys]
      exact dedupKeysFirst_nodup _
    have hlook := lookupA_of_mem (jsMapOfSources s) hnd p hp
    rw [← lookupA_jsMap_lastWith, ← h1, hlook, he]

/-- Witness for C1 (amended): in the two-duplicate example the kept
citation is the last occurrence for its videoId. -/
theorem c1_amended_witness :
    lastWith exCiteB.videoId [exCiteA, exCiteB] = some exCiteB :=
  (c1_amended [exCiteA, exCiteB]).2.2 exCiteB (by decide)
